import Mathlib

/-!
Verification of the EVM-script codec of the api3-dao-dashboard repository
(`goEncodeEvmScript`, `decodeEvmScript`, `isEvmScriptValid` and their helpers).

Modelling conventions (shallow embedding):
* Hex data strings (`0x...`) are modelled as lists of bytes (`List Nat`);
  the JS string concatenation of `0x`-stripped hex strings is list append,
  `utils.hexDataSlice(x, n)` is `List.drop n`.
* External collaborators (the ethers ABI coder, keccak256, the ENS provider,
  the runtime JSON parser/serializer and the ethers address / function
  fragment validators) are abstracted as fields of an `Externals` record; each
  theorem states the exact assumptions it needs about them.
* Promise-based failure (`go`/`goSync` of @api3/promise-utils) is modelled
  with `Option` (a thrown error is `none`); `GoResult` is `Except`.
* Decoded JS values (string / BigNumber / boolean / bytes / array / null)
  are the inductive `EvmValue`; BigNumbers are arbitrary-precision `Int`.
-/

/-- A byte string (the model of a `0x...` data hex string). -/
abbrev Bytes := List Nat

/-- A JS value as handled by the codec: JSON-parsed parameters and
values decoded by the ethers ABI coder. `vbytes` is a DataHexString,
`vnum` a BigNumber, `vnull` plays the role of `null`/`undefined`. -/
inductive EvmValue where
  | vstr (s : String)
  | vnum (n : Int)
  | vbool (b : Bool)
  | vbytes (b : Bytes)
  | varr (vs : List EvmValue)
  | vnull

/-- The `type` field of `NewProposalFormData` / `Proposal`. -/
inductive ProposalType where
  | primary
  | secondary
deriving DecidableEq

/-- The addresses of the voting app agents (`Api3Agent` from contracts),
each a 20-byte account address. -/
structure Api3Agent where
  primary : Bytes
  secondary : Bytes

/-- Model of `api3Agent[formData.type]`. -/
def Api3Agent.get (a : Api3Agent) : ProposalType → Bytes
  | .primary => a.primary
  | .secondary => a.secondary

/-- Model of `NewProposalFormData` of the proposal form (codec-relevant fields plus
title/description as in the source). -/
structure NewProposalFormData where
  type : ProposalType
  title : String
  description : String
  targetAddress : String
  targetSignature : String
  targetValue : String
  parameters : String

/-- Model of `ProposalMetadata`, stored off-chain at creation time. -/
structure ProposalMetadata where
  targetSignature : String
  title : String
  description : String

/-- Model of `DecodedEvmScript`: targetAddress is a string, value a BigNumber and
parameters the array of decoded JS values (only BigNumbers among them are
stringified by the decoder, see `stringifyBigNumbersRecursively`). -/
structure DecodedEvmScript where
  targetAddress : String
  value : Int
  parameters : List EvmValue

/-- The error field union of `EncodedEvmScriptError`. -/
inductive ErrorField where
  | parameters
  | targetSignature
  | targetValue
  | targetAddress
  | generic
deriving DecidableEq

/-- Model of `EncodedEvmScriptError` (field identifier plus human-readable message). -/
structure EncodedEvmScriptError where
  field : ErrorField
  value : String
deriving DecidableEq

/-- The codec-relevant part of a stored `Proposal`
(`Pick<Proposal, 'type' | 'metadata' | 'decodedEvmScript' | 'script'>`). -/
structure ProposalCore where
  type : ProposalType
  metadata : ProposalMetadata
  decodedEvmScript : Option DecodedEvmScript
  script : Bytes

/-- The external collaborators consumed by the codec: keccak256, the
ethers ABI coder and validators, the ENS provider and the runtime JSON
parser/serializer. Each is abstract; theorems state the assumptions
they need about them. -/
structure Externals where
  keccak256 : Bytes → Bytes
  abiEncode : List String → List EvmValue → Option Bytes
  abiDecode : List String → Bytes → Option (List EvmValue)
  isAddress : String → Bool
  resolveName : String → Option String
  lookupEns : String → Option String
  isValidFunctionFragment : String → Bool
  jsonParse : String → Option EvmValue
  jsonStringify : EvmValue → String

/-! ## JS string primitives used by the codec -/

/-- JS `String.prototype.indexOf` for a single character: the index of the
first occurrence, `-1` when absent. -/
def jsIndexOf (s : String) (c : Char) : Int :=
  match s.data.findIdx? (fun x => x = c) with
  | some i => (i : Int)
  | none => -1

/-- JS `String.prototype.substring`: both indices are clamped to
`[0, length]` and swapped when start exceeds end. -/
def jsSubstring (s : String) (start stop : Int) : String :=
  let len : Int := (s.data.length : Int)
  let a := ((max 0 (min start len)).toNat)
  let b := ((max 0 (min stop len)).toNat)
  let lo := min a b
  let hi := max a b
  String.mk ((s.data.drop lo).take (hi - lo))

/-- JS `split(',')` on a character list: splits at every comma, keeping
empty segments (`"".split(',') = [""]`). -/
def splitCommaAux : List Char → List (List Char)
  | [] => [[]]
  | c :: cs =>
    let rest := splitCommaAux cs
    if c = ',' then [] :: rest
    else
      match rest with
      | r :: rs => (c :: r) :: rs
      | [] => [[c]]

/-- JS `String.prototype.split(',')`. -/
def jsSplitComma (s : String) : List String :=
  (splitCommaAux s.data).map String.mk

/-! ## Decimal / hex integer parsing and printing (BigNumber model) -/

/-- Numeric value of a decimal digit character. -/
def decDigitVal (c : Char) : Nat := c.toNat - 48

/-- Whether a character is a decimal digit. -/
def isDecDigit (c : Char) : Bool := 48 ≤ c.toNat && c.toNat ≤ 57

/-- Numeric value of a hex digit character (0 for non-hex characters). -/
def hexDigitVal (c : Char) : Nat :=
  if 48 ≤ c.toNat && c.toNat ≤ 57 then c.toNat - 48
  else if 97 ≤ c.toNat && c.toNat ≤ 102 then c.toNat - 87
  else if 65 ≤ c.toNat && c.toNat ≤ 70 then c.toNat - 55
  else 0

/-- Whether a character is a hex digit. -/
def isHexDigit (c : Char) : Bool :=
  (48 ≤ c.toNat && c.toNat ≤ 57) || (97 ≤ c.toNat && c.toNat ≤ 102) ||
    (65 ≤ c.toNat && c.toNat ≤ 70)

/-- Parse a non-empty all-decimal character list. -/
def parseDecChars (cs : List Char) : Option Nat :=
  if cs ≠ [] ∧ cs.all isDecDigit then
    some (cs.foldl (fun acc c => acc * 10 + decDigitVal c) 0)
  else none

/-- Parse a non-empty all-hex character list. -/
def parseHexChars (cs : List Char) : Option Nat :=
  if cs ≠ [] ∧ cs.all isHexDigit then
    some (cs.foldl (fun acc c => acc * 16 + hexDigitVal c) 0)
  else none

/-- Parse the magnitude of a BigNumber string: `0x`-prefixed hex or
decimal. -/
def parseNatChars : List Char → Option Nat
  | '0' :: 'x' :: rest => parseHexChars rest
  | cs => parseDecChars cs

/-- Model of `BigNumber.from` on a string: optional leading minus sign followed by a
decimal or `0x`-hex magnitude; anything else throws (`none`). -/
def bigNumberFromString (s : String) : Option Int :=
  match s.data with
  | '-' :: rest => (parseNatChars rest).map (fun n => -(n : Int))
  | _ => (parseNatChars s.data).map (fun n => (n : Int))

/-- Little-endian digit characters of `n` (fuel-driven; `natToDecString`
supplies `n` itself as fuel). -/
def natToDigitsAux : Nat → Nat → List Char
  | 0, _ => []
  | fuel + 1, n =>
    if n = 0 then []
    else Nat.digitChar (n % 10) :: natToDigitsAux fuel (n / 10)

/-- Decimal representation of a natural number (`BigNumber.toString`
for non-negative values). -/
def natToDecString (n : Nat) : String :=
  if n = 0 then "0" else String.mk (natToDigitsAux n n).reverse

/-- Model of `BigNumber.prototype.toString`: decimal, with a leading minus sign for
negative values. -/
def intToDecString : Int → String
  | .ofNat n => natToDecString n
  | .negSucc n => "-" ++ natToDecString (n + 1)

/-! ## Resolution helpers (`ens-name.ts` is outside src/) -/

/-- Modelled from the spec: `convertToAddressOrThrow` of `ens-name.ts`
(file not included under src/). "resolveToAddress(raw) -> address: if raw
already parses as a well-formed address, return it unchanged; otherwise
treat it as a name and resolve via the external collaborator; fails with
UnresolvableAddressError if resolution yields no result." -/
def convertToAddressOrThrow (ext : Externals) (raw : String) : Option String :=
  if ext.isAddress raw then some raw else ext.resolveName raw

/-- The helper `convertToAddressOrThrow` applied to an arbitrary JS parameter value: a
non-string value neither parses as an address nor resolves as a name, so
resolution fails. -/
def convertToAddressOrThrowV (ext : Externals) : EvmValue → Option EvmValue
  | .vstr s => (convertToAddressOrThrow ext s).map EvmValue.vstr
  | _ => none

/-- Modelled from the spec: `tryConvertToEnsName` of `ens-name.ts` (file
not included under src/). "resolveToDisplayName(address) -> string:
attempts reverse resolution via the external collaborator; on any failure
falls back to returning the address unchanged — this direction never fails
the caller." -/
def tryConvertToEnsName (ext : Externals) (address : String) : String :=
  (ext.lookupEns address).getD address

/-- The helper `tryConvertToEnsName` applied to an arbitrary decoded value: reverse
resolution of a non-string value fails inside and the value is returned
unchanged (this direction never fails the caller). -/
def tryConvertToEnsNameV (ext : Externals) : EvmValue → EvmValue
  | .vstr s => .vstr (tryConvertToEnsName ext s)
  | v => v

/-! ## The codec -/

/-- Model of `utils.toUtf8Bytes` (code points; agrees with UTF-8 on the ASCII
signatures the codec hashes). -/
def toUtf8Bytes (s : String) : Bytes := s.data.map Char.toNat

/-- Model of `encodeFunctionSignature`: the first 4 bytes of the keccak256 hash of
the UTF-8 signature bytes (`hexDataSlice(keccak256(toUtf8Bytes(f)), 0, 4)`). -/
def encodeFunctionSignature (ext : Externals) (functionFragment : String) : Bytes :=
  (ext.keccak256 (toUtf8Bytes functionFragment)).take 4

/-- Model of `encodedExecuteSignature = encodeFunctionSignature('execute(address,uint256,bytes)')`. -/
def encodedExecuteSignature (ext : Externals) : Bytes :=
  encodeFunctionSignature ext "execute(address,uint256,bytes)"

/-- The outer call types `['address', 'uint256', 'bytes']`. -/
def execTypes : List String := ["address", "uint256", "bytes"]

/-- The inside of the signature's parentheses:
`signature.substring(signature.indexOf('(') + 1, signature.indexOf(')'))`. -/
def signatureInner (signature : String) : String :=
  jsSubstring signature (jsIndexOf signature '(' + 1) (jsIndexOf signature ')')

/-- Parameter-type extraction as performed by `decodeEvmScript`:
split on commas, with no filtering of empty segments. -/
def decodeParameterTypes (signature : String) : List String :=
  jsSplitComma (signatureInner signature)

/-- Parameter-type extraction as performed by encoding step 3
(`goExtractParameters`): split on commas and drop empty segments, so a
zero-argument function yields the empty list. -/
def extractParameterTypes (signature : String) : List String :=
  (jsSplitComma (signatureInner signature)).filter (fun s => 0 < s.length)

/-- The ENS resolution fan-out of `goEncodeEvmScript`:
`Promise.all(range(parameterTypes.length).map(i => ...))`, resolving
parameters whose declared type is exactly `address` and passing all other
values through. Index `i` of the source corresponds to `i` head/tail
steps here (`targetParameters[i]!` is `headD vnull` of the `i`-fold tail). -/
def resolveTargetParameters (ext : Externals) :
    List String → List EvmValue → Option (List EvmValue)
  | [], _ => some []
  | ty :: tys, params => do
    let param := params.headD .vnull
    let first ← if ty ≠ "address" then some param
      else convertToAddressOrThrowV ext param
    let rest ← resolveTargetParameters ext tys params.tail
    pure (first :: rest)

/-- Big-endian 4-byte encoding of a length (total function backing
`hexZeroPad(..., 4)`). -/
def be4 (n : Nat) : Bytes :=
  [n / 2 ^ 24 % 256, n / 2 ^ 16 % 256, n / 2 ^ 8 % 256, n % 256]

/-- Model of `hexZeroPad(BigNumber.from(n).toHexString(), 4)`: the big-endian 4-byte
encoding; throws (`none`) when the value does not fit in 4 bytes. -/
def hexZeroPad4 (n : Nat) : Option Bytes :=
  if n < 2 ^ 32 then some (be4 n) else none

/-- Model of `goBuildEvmScript`: assemble the execute call-data and the script
container `0x00000001 ++ agent ++ length ++ callData`; any failure inside
is reported as `none` (the `generic` error). -/
def goBuildEvmScript (ext : Externals) (formData : NewProposalFormData)
    (api3Agent : Api3Agent) (targetAddress : String) (targetValue : Int)
    (encodedTargetParameters : Bytes) : Option Bytes := do
  let body ← ext.abiEncode execTypes
    [.vstr targetAddress, .vnum targetValue,
     .vbytes (encodeFunctionSignature ext formData.targetSignature ++
       encodedTargetParameters)]
  let callData := encodedExecuteSignature ext ++ body
  let callDataLengthInBytes ← hexZeroPad4 callData.length
  pure ([0, 0, 0, 1] ++ api3Agent.get formData.type ++
    callDataLengthInBytes ++ callData)

/-- Model of `goEncodeEvmScript`: validates the form data step by step (each step
with its distinct error field) and builds the EVM script. -/
def goEncodeEvmScript (ext : Externals) (formData : NewProposalFormData)
    (api3Agent : Api3Agent) : Except EncodedEvmScriptError Bytes :=
  -- Ensure that the form parameters form a valid JSON array
  match ext.jsonParse formData.parameters with
  | some (.varr targetParameters) =>
    -- Target contract signature must be a valid solidity function signature
    if ext.isValidFunctionFragment formData.targetSignature then
      -- Extract the parameter types and check the argument count
      let parameterTypes := extractParameterTypes formData.targetSignature
      if parameterTypes.length = targetParameters.length then
        -- Resolve ENS names for address parameters, then ABI-encode them
        match resolveTargetParameters ext parameterTypes targetParameters with
        | some parameters =>
          match ext.abiEncode parameterTypes parameters with
          | some encodedTargetParameters =>
            -- Ensure target address is a valid address or valid ENS name
            match convertToAddressOrThrow ext formData.targetAddress with
            | some targetAddress =>
              -- Ensure value is a non-negative amount (in Wei)
              match bigNumberFromString formData.targetValue with
              | some v =>
                if v < 0 then
                  .error ⟨.targetValue, "Please enter a valid amount in Wei"⟩
                else
                  -- Build the EVM script according to the scheme
                  match goBuildEvmScript ext formData api3Agent targetAddress
                      v encodedTargetParameters with
                  | some script => .ok script
                  | none =>
                    .error ⟨.generic,
                      "Unable to encode the EVM script. Please check that all form fields are correct"⟩
              | none =>
                .error ⟨.targetValue, "Please enter a valid amount in Wei"⟩
            | none =>
              .error ⟨.targetAddress, "Please specify a valid account address"⟩
          | none =>
            .error ⟨.parameters, "Ensure parameters match target contract signature"⟩
        | none =>
          .error ⟨.parameters, "Ensure parameters match target contract signature"⟩
      else
        .error ⟨.parameters, "Please specify the correct number of function arguments"⟩
    else
      .error ⟨.targetSignature, "Please specify a valid contract signature"⟩
  | some _ => .error ⟨.parameters, "Make sure parameters is a valid JSON array"⟩
  | none => .error ⟨.parameters, "Make sure parameters is a valid JSON array"⟩

mutual

/-- Model of `stringifyBigNumbersRecursively`: BigNumbers become their decimal
string, arrays are mapped recursively, every other value is returned
unchanged. -/
def stringifyBigNumbersRecursively : EvmValue → EvmValue
  | .vnum n => .vstr (intToDecString n)
  | .varr vs => .varr (stringifyBigNumbersList vs)
  | v => v

/-- The array branch of `stringifyBigNumbersRecursively`. -/
def stringifyBigNumbersList : List EvmValue → List EvmValue
  | [] => []
  | v :: vs => stringifyBigNumbersRecursively v :: stringifyBigNumbersList vs

end

/-- The decode-side ENS fan-out:
`Promise.all(range(parameterTypes.length).map(i => ...))` over the decoded
parameters, reverse-resolving values whose declared type is exactly
`address` (`decodedParameters[i]!` is `headD vnull` of the `i`-fold tail). -/
def decodeParametersAux (ext : Externals) :
    List String → List EvmValue → List EvmValue
  | [], _ => []
  | ty :: tys, vals =>
    let param := vals.headD .vnull
    (if ty ≠ "address" then param else tryConvertToEnsNameV ext param) ::
      decodeParametersAux ext tys vals.tail

/-- Model of `decodeEvmScript`: strip the container (4-byte tag, then 20-byte agent
address plus 4-byte length), ABI-decode the execute call-data past its
selector, reverse-resolve the target address, extract the parameter types
from the metadata signature (split without filtering) and ABI-decode the
inner call-data past its selector. Any failure collapses to `none`. The
match on `[vstr, vnum, vbytes]` mirrors the value shapes the ethers coder
returns for types `(address, uint256, bytes)`. -/
def decodeEvmScript (ext : Externals) (script : Bytes)
    (metadata : ProposalMetadata) : Option DecodedEvmScript := do
  let evmScriptPayload := script.drop 4
  let callData := evmScriptPayload.drop 24
  let executionParameters ← ext.abiDecode execTypes (callData.drop 4)
  match executionParameters with
  | [.vstr target, .vnum value, .vbytes targetCallData] =>
    let targetContractAddress := tryConvertToEnsName ext target
    let parameterTypes := decodeParameterTypes metadata.targetSignature
    let decodedParameters ← ext.abiDecode parameterTypes (targetCallData.drop 4)
    let parameters := decodeParametersAux ext parameterTypes decodedParameters
    some ⟨targetContractAddress, value, stringifyBigNumbersList parameters⟩
  | _ => none

/-- The decoded fields of a stored proposal re-serialized back into
form-data shape, as built inline by `isEvmScriptValid` before re-encoding
(parameters via `JSON.stringify`, the value via `BigNumber.toString`). -/
def reencodeFormData (ext : Externals) (proposal : ProposalCore)
    (decodedEvmScript : DecodedEvmScript) : NewProposalFormData :=
  { type := proposal.type
    targetSignature := proposal.metadata.targetSignature
    description := proposal.metadata.description
    title := proposal.metadata.title
    parameters := ext.jsonStringify (.varr decodedEvmScript.parameters)
    targetAddress := decodedEvmScript.targetAddress
    targetValue := intToDecString decodedEvmScript.value }

/-- Model of `isEvmScriptValid`: re-encode the decoded fields re-serialized into
form-data shape and compare byte-for-byte with the stored script; a null
`decodedEvmScript` or any encode failure yields `false`. -/
def isEvmScriptValid (ext : Externals) (api3Agent : Api3Agent)
    (proposal : ProposalCore) : Bool :=
  match proposal.decodedEvmScript with
  | none => false
  | some decodedEvmScript =>
    match goEncodeEvmScript ext (reencodeFormData ext proposal decodedEvmScript)
        api3Agent with
    | .ok data => data == proposal.script
    | .error _ => false

/-! ## Helper lemmas -/

/-- The `metadata` record created for a proposal created from the given form data. -/
def metadataOf (f : NewProposalFormData) : ProposalMetadata :=
  ⟨f.targetSignature, f.title, f.description⟩

/-- The script layout produced by `goBuildEvmScript` once the execute
call-data body is known. -/
def evmScriptFor (ext : Externals) (agent : Api3Agent)
    (f : NewProposalFormData) (body : Bytes) : Bytes :=
  [0, 0, 0, 1] ++ agent.get f.type ++
    be4 (encodedExecuteSignature ext ++ body).length ++
    (encodedExecuteSignature ext ++ body)

theorem be4_length (n : Nat) : (be4 n).length = 4 := rfl

theorem encodeFunctionSignature_length (ext : Externals)
    (hk : ∀ b, (ext.keccak256 b).length = 32) (s : String) :
    (encodeFunctionSignature ext s).length = 4 := by
  simp [encodeFunctionSignature, List.length_take, hk]

theorem drop_append_of_length {a b : List Nat} {n : Nat} (h : a.length = n) :
    (a ++ b).drop n = b := by
  subst h
  simp

theorem drop_append_append_of_length {a b c : List Nat} {n : Nat}
    (h : a.length + b.length = n) : (a ++ (b ++ c)).drop n = c := by
  rw [← List.append_assoc]
  exact drop_append_of_length (by simp [h])

theorem isDecDigit_digitChar {d : Nat} (h : d < 10) :
    isDecDigit (Nat.digitChar d) = true := by
  interval_cases d <;> decide

theorem decDigitVal_digitChar {d : Nat} (h : d < 10) :
    decDigitVal (Nat.digitChar d) = d := by
  interval_cases d <;> decide

theorem isDecDigit_ne_minus {c : Char} (h : isDecDigit c = true) : c ≠ '-' := by
  rintro rfl
  simp [isDecDigit] at h

theorem isDecDigit_ne_x {c : Char} (h : isDecDigit c = true) : c ≠ 'x' := by
  rintro rfl
  simp [isDecDigit] at h

theorem natToDigitsAux_all_digits :
    ∀ fuel n, (natToDigitsAux fuel n).all isDecDigit = true := by
  intro fuel
  induction fuel with
  | zero => intro n; simp [natToDigitsAux]
  | succ fuel ih =>
    intro n
    unfold natToDigitsAux
    split
    · simp
    · simp only [List.all_cons, Bool.and_eq_true]
      exact ⟨isDecDigit_digitChar (Nat.mod_lt _ (by omega)), ih _⟩

theorem natToDigitsAux_val :
    ∀ fuel n, n ≤ fuel →
      (natToDigitsAux fuel n).foldr (fun c acc => decDigitVal c + 10 * acc) 0 = n := by
  intro fuel
  induction fuel with
  | zero => intro n h; interval_cases n; simp [natToDigitsAux]
  | succ fuel ih =>
    intro n h
    unfold natToDigitsAux
    split
    · simp_all
    · have hlt : n / 10 < n := Nat.div_lt_self (by omega) (by omega)
      have := ih (n / 10) (by omega)
      simp only [List.foldr_cons, this,
        decDigitVal_digitChar (Nat.mod_lt _ (by omega))]
      omega

theorem natToDigitsAux_ne_nil {fuel n : Nat} (h0 : n ≠ 0) (hf : n ≤ fuel) :
    natToDigitsAux fuel n ≠ [] := by
  cases fuel with
  | zero => omega
  | succ fuel => simp [natToDigitsAux, h0]

theorem foldr_decVal_comm (cs : List Char) :
    cs.foldr (fun c acc => acc * 10 + decDigitVal c) 0 =
      cs.foldr (fun c acc => decDigitVal c + 10 * acc) 0 := by
  induction cs with
  | nil => rfl
  | cons c cs ih => simp [List.foldr_cons, ih]; ring

theorem parseDecChars_reverse (cs : List Char)
    (hall : cs.all isDecDigit = true) (hne : cs ≠ []) :
    parseDecChars cs.reverse =
      some (cs.foldr (fun c acc => decDigitVal c + 10 * acc) 0) := by
  unfold parseDecChars
  rw [if_pos]
  · rw [List.foldl_reverse]
    rw [show (cs.foldr (fun x y => (fun acc c => acc * 10 + decDigitVal c) y x) 0) =
      cs.foldr (fun c acc => acc * 10 + decDigitVal c) 0 from rfl]
    rw [foldr_decVal_comm]
  · constructor
    · simp [hne]
    · rw [List.all_reverse]
      exact hall

theorem bigNumberFromString_natToDecString (n : Nat) :
    bigNumberFromString (natToDecString n) = some (n : Int) := by
  by_cases h0 : n = 0
  · subst h0
    rfl
  · unfold natToDecString
    rw [if_neg h0]
    have hall := natToDigitsAux_all_digits n n
    have hval := natToDigitsAux_val n n le_rfl
    have hne : natToDigitsAux n n ≠ [] := natToDigitsAux_ne_nil h0 le_rfl
    have hparse := parseDecChars_reverse _ hall hne
    rw [hval] at hparse
    cases hds : (natToDigitsAux n n).reverse with
    | nil => exact absurd (List.reverse_eq_nil_iff.mp hds) hne
    | cons c cs =>
      have hcdig : isDecDigit c = true := by
        have hmem : c ∈ natToDigitsAux n n := by
          rw [← List.mem_reverse, hds]
          exact List.mem_cons_self c cs
        exact List.all_eq_true.mp hall _ hmem
      unfold bigNumberFromString
      rw [show (String.mk (c :: cs)).data = c :: cs from rfl]
      split
      · rename_i rest hmk
        have h1 : c = '-' := by injection hmk
        exact absurd h1 (isDecDigit_ne_minus hcdig)
      · unfold parseNatChars
        split
        · rename_i rest hmk
          have hx : ('x' : Char) ∈ natToDigitsAux n n := by
            rw [← List.mem_reverse, hds, hmk]
            simp
          have : isDecDigit 'x' = true := List.all_eq_true.mp hall _ hx
          simp [isDecDigit] at this
        · rw [← hds, hparse]
          rfl

theorem bigNumberFromString_intToDecString {V : Int} (h : 0 ≤ V) :
    bigNumberFromString (intToDecString V) = some V := by
  obtain ⟨n, rfl⟩ := Int.eq_ofNat_of_zero_le h
  exact bigNumberFromString_natToDecString n

/-- Inversion of the success path of `goEncodeEvmScript`: when every
validation step succeeds the result is the assembled script. -/
theorem goEncodeEvmScript_eq_ok (ext : Externals) (agent : Api3Agent)
    (f : NewProposalFormData) (ps resolved : List EvmValue)
    (encP body : Bytes) (A : String) (V : Int)
    (hps : ext.jsonParse f.parameters = some (.varr ps))
    (hsig : ext.isValidFunctionFragment f.targetSignature = true)
    (harity : (extractParameterTypes f.targetSignature).length = ps.length)
    (hres : resolveTargetParameters ext (extractParameterTypes f.targetSignature) ps
      = some resolved)
    (hencP : ext.abiEncode (extractParameterTypes f.targetSignature) resolved
      = some encP)
    (hA : convertToAddressOrThrow ext f.targetAddress = some A)
    (hV : bigNumberFromString f.targetValue = some V)
    (hV0 : ¬ V < 0)
    (hbody : ext.abiEncode execTypes
      [.vstr A, .vnum V,
       .vbytes (encodeFunctionSignature ext f.targetSignature ++ encP)] = some body)
    (hlen : (encodedExecuteSignature ext ++ body).length < 2 ^ 32) :
    goEncodeEvmScript ext f agent = .ok (evmScriptFor ext agent f body) := by
  unfold goEncodeEvmScript goBuildEvmScript hexZeroPad4
  simp only [hps, hsig, harity, if_true, if_pos rfl, hres, hencP, hA, hV,
    if_neg hV0, hbody, Option.bind_eq_bind, Option.some_bind, if_pos hlen,
    evmScriptFor]

/-- Unfolding equation for `resolveTargetParameters` on a cons cell. -/
theorem resolveTargetParameters_cons (ext : Externals) (ty : String)
    (tys : List String) (p : EvmValue) (ps' : List EvmValue) :
    resolveTargetParameters ext (ty :: tys) (p :: ps') =
      (if ty ≠ "address" then some p else convertToAddressOrThrowV ext p).bind
        (fun first => (resolveTargetParameters ext tys ps').bind
          (fun rest => some (first :: rest))) := by
  rw [resolveTargetParameters]
  simp only [List.headD_cons, List.tail_cons]
  split <;> rfl

/-- Unfolding equation for `decodeParametersAux` on a cons cell. -/
theorem decodeParametersAux_cons (ext : Externals) (ty : String)
    (tys : List String) (v : EvmValue) (vs : List EvmValue) :
    decodeParametersAux ext (ty :: tys) (v :: vs) =
      (if ty ≠ "address" then v else tryConvertToEnsNameV ext v) ::
        decodeParametersAux ext tys vs := rfl

/-- Unfolding equation for `stringifyBigNumbersList` on a cons cell. -/
theorem stringifyBigNumbersList_cons (v : EvmValue) (vs : List EvmValue) :
    stringifyBigNumbersList (v :: vs) =
      stringifyBigNumbersRecursively v :: stringifyBigNumbersList vs := by
  rw [stringifyBigNumbersList]

/-- The decode-side parameter pipeline (reverse ENS resolution followed by
BigNumber stringification) restores the original string parameters that the
encode-side pipeline resolved, provided the resolver round-trips resolvable
inputs. -/
theorem stringify_decodeParams_roundtrip (ext : Externals)
    (hens : ∀ nm a, convertToAddressOrThrow ext nm = some a →
      tryConvertToEnsName ext a = nm) :
    ∀ (tys : List String) (ps resolved : List EvmValue),
      tys.length = ps.length →
      (∀ v ∈ ps, ∃ s, v = .vstr s) →
      resolveTargetParameters ext tys ps = some resolved →
      stringifyBigNumbersList (decodeParametersAux ext tys resolved) = ps := by
  intro tys
  induction tys with
  | nil =>
    intro ps resolved hlen _ hres
    have hps : ps = [] := List.eq_nil_of_length_eq_zero hlen.symm
    subst hps
    simp only [resolveTargetParameters, Option.some.injEq] at hres
    subst hres
    rfl
  | cons ty tys ih =>
    intro ps resolved hlen hstr hres
    cases ps with
    | nil => simp at hlen
    | cons p ps' =>
      rw [resolveTargetParameters_cons] at hres
      rcases Option.bind_eq_some.mp hres with ⟨first, hfirst, hres2⟩
      rcases Option.bind_eq_some.mp hres2 with ⟨rest, hrest, heq⟩
      have heq' : first :: rest = resolved := by injection heq
      subst heq'
      obtain ⟨s, rfl⟩ := hstr _ (List.mem_cons_self _ _)
      have hrec : stringifyBigNumbersList (decodeParametersAux ext tys rest) = ps' :=
        ih ps' rest (by simpa using hlen)
          (fun v hv => hstr v (List.mem_cons_of_mem _ hv)) hrest
      rw [decodeParametersAux_cons, stringifyBigNumbersList_cons]
      by_cases hty : ty = "address"
      · rw [if_neg (by simp [hty])] at hfirst
        simp only [convertToAddressOrThrowV, Option.map_eq_some'] at hfirst
        obtain ⟨a, ha, rfl⟩ := hfirst
        rw [if_neg (by simp [hty])]
        show EvmValue.vstr (tryConvertToEnsName ext a) ::
          stringifyBigNumbersList (decodeParametersAux ext tys rest) = _
        rw [hens _ _ ha, hrec]
      · rw [if_pos hty] at hfirst
        have hf : EvmValue.vstr s = first := by injection hfirst
        subst hf
        rw [if_pos hty]
        show EvmValue.vstr s ::
          stringifyBigNumbersList (decodeParametersAux ext tys rest) = _
        rw [hrec]

/-- Decoding a script with the container layout produced by the encoder
recovers the target address (reverse-resolved), the value and the original
parameters, under the stated assumptions on the external ABI coder and
resolver. -/
theorem decodeEvmScript_eq_some (ext : Externals) (agentB lenB body encP : Bytes)
    (m : ProposalMetadata) (A : String) (V : Int) (resolved ps : List EvmValue)
    (hk32 : ∀ b, (ext.keccak256 b).length = 32)
    (h20 : agentB.length = 20) (hlen4 : lenB.length = 4)
    (hdecExec : ext.abiDecode execTypes body =
      some [.vstr A, .vnum V,
        .vbytes (encodeFunctionSignature ext m.targetSignature ++ encP)])
    (hsame : decodeParameterTypes m.targetSignature =
      extractParameterTypes m.targetSignature)
    (hdecP : ext.abiDecode (decodeParameterTypes m.targetSignature) encP
      = some resolved)
    (harity : (extractParameterTypes m.targetSignature).length = ps.length)
    (hstr : ∀ v ∈ ps, ∃ s, v = .vstr s)
    (hres : resolveTargetParameters ext
      (extractParameterTypes m.targetSignature) ps = some resolved)
    (hens : ∀ nm a, convertToAddressOrThrow ext nm = some a →
      tryConvertToEnsName ext a = nm) :
    decodeEvmScript ext
      ([0, 0, 0, 1] ++ agentB ++ lenB ++ (encodedExecuteSignature ext ++ body)) m
      = some ⟨tryConvertToEnsName ext A, V, ps⟩ := by
  have hd4 : ([0, 0, 0, 1] ++ agentB ++ lenB ++
      (encodedExecuteSignature ext ++ body) : Bytes).drop 4 =
      agentB ++ (lenB ++ (encodedExecuteSignature ext ++ body)) := by
    simp
  have hd24 : (agentB ++ (lenB ++ (encodedExecuteSignature ext ++ body)) : Bytes).drop 24 =
      encodedExecuteSignature ext ++ body :=
    drop_append_append_of_length (by omega)
  have hcd : (encodedExecuteSignature ext ++ body : Bytes).drop 4 = body :=
    drop_append_of_length (encodeFunctionSignature_length ext hk32 _)
  have hinner : (encodeFunctionSignature ext m.targetSignature ++ encP : Bytes).drop 4 = encP :=
    drop_append_of_length (encodeFunctionSignature_length ext hk32 _)
  unfold decodeEvmScript
  simp only [hd4, hd24, hcd, hdecExec, Option.bind_eq_bind, Option.some_bind,
    hinner, hdecP]
  rw [hsame]
  rw [stringify_decodeParams_roundtrip ext hens _ ps resolved harity hstr hres]

/-- C1 (amended): for every valid ProposalFormData whose target address and
address-typed parameters are resolvable, whose JSON parameters are strings,
and whose signature's parameter-type extraction agrees between the encoder
and the decoder (it differs for zero-argument signatures), encoding
succeeds with the container layout and decoding the result with metadata
carrying the form's targetSignature yields exactly the form's target
address, value and parameters, modulo name/address normalization (the
stated resolver round-trip) and granted the ABI coder inverts its own
encoding on the two payloads involved. -/
theorem c1_encode_decode_roundtrip
    (ext : Externals) (agent : Api3Agent) (f : NewProposalFormData)
    (ps resolved : List EvmValue) (encP body : Bytes) (A : String) (V : Int)
    (hk32 : ∀ b, (ext.keccak256 b).length = 32)
    (h20 : (agent.get f.type).length = 20)
    (hps : ext.jsonParse f.parameters = some (.varr ps))
    (hsig : ext.isValidFunctionFragment f.targetSignature = true)
    (harity : (extractParameterTypes f.targetSignature).length = ps.length)
    (hstr : ∀ v ∈ ps, ∃ s, v = .vstr s)
    (hres : resolveTargetParameters ext
      (extractParameterTypes f.targetSignature) ps = some resolved)
    (hencP : ext.abiEncode (extractParameterTypes f.targetSignature) resolved
      = some encP)
    (hA : convertToAddressOrThrow ext f.targetAddress = some A)
    (hV : bigNumberFromString f.targetValue = some V)
    (hV0 : ¬ V < 0)
    (hbody : ext.abiEncode execTypes
      [.vstr A, .vnum V,
       .vbytes (encodeFunctionSignature ext f.targetSignature ++ encP)] = some body)
    (hlen : (encodedExecuteSignature ext ++ body).length < 2 ^ 32)
    (hsame : decodeParameterTypes f.targetSignature =
      extractParameterTypes f.targetSignature)
    (hdecExec : ext.abiDecode execTypes body = some [.vstr A, .vnum V,
      .vbytes (encodeFunctionSignature ext f.targetSignature ++ encP)])
    (hdecP : ext.abiDecode (decodeParameterTypes f.targetSignature) encP
      = some resolved)
    (hens : ∀ nm a, convertToAddressOrThrow ext nm = some a →
      tryConvertToEnsName ext a = nm) :
    goEncodeEvmScript ext f agent = .ok (evmScriptFor ext agent f body) ∧
    decodeEvmScript ext (evmScriptFor ext agent f body) (metadataOf f) =
      some ⟨f.targetAddress, V, ps⟩ := by
  refine ⟨goEncodeEvmScript_eq_ok ext agent f ps resolved encP body A V hps hsig
    harity hres hencP hA hV hV0 hbody hlen, ?_⟩
  have hd := decodeEvmScript_eq_some ext (agent.get f.type)
    (be4 (encodedExecuteSignature ext ++ body).length) body encP (metadataOf f)
    A V resolved ps hk32 h20 (be4_length _) hdecExec hsame hdecP harity hstr
    hres hens
  rw [hens _ _ hA] at hd
  exact hd

/-! ## Concrete external collaborators for witnesses and counterexamples -/

/-- A stand-in keccak256 for concrete instances: always 32 bytes, as the
real hash is. -/
def toyKeccak (b : Bytes) : Bytes := (b ++ List.replicate 32 0).take 32

theorem toyKeccak_length : ∀ b, (toyKeccak b).length = 32 := by
  intro b
  simp [toyKeccak]

/-- Agent address map with 20-byte addresses. -/
def toyAgent : Api3Agent := ⟨List.replicate 20 170, List.replicate 20 187⟩

/-- Externals used to exhibit the zero-argument round-trip failure: the ABI
coder handles the empty type list and the execute types, and rejects the
invalid type list containing the empty string, as ethers does. -/
def extC1 : Externals where
  keccak256 := toyKeccak
  abiEncode := fun tys _ =>
    if tys = ([] : List String) then some []
    else if tys = execTypes then some [7] else none
  abiDecode := fun tys bs =>
    if tys = execTypes ∧ bs = [7] then
      some [.vstr "0xB", .vnum 0, .vbytes [112, 97, 117, 115]]
    else none
  isAddress := fun s => s == "0xB"
  resolveName := fun _ => none
  lookupEns := fun _ => none
  isValidFunctionFragment := fun s => s == "pause()"
  jsonParse := fun s => if s == "[]" then some (.varr []) else none
  jsonStringify := fun _ => "[]"

/-- A zero-argument proposal form whose target address is a plain address. -/
def formC1 : NewProposalFormData :=
  ⟨.primary, "", "", "0xB", "pause()", "0", "[]"⟩

/-- C1 counterexample: the zero-argument form `formC1` is valid and fully
resolvable, encoding succeeds, but decoding the produced script with the
form's own metadata yields `null` (the decoder's unfiltered comma split
turns the empty parameter list into the invalid type list containing one
empty string), so no DecodedEvmScript matching the form is returned. -/
theorem c1_counterexample :
    goEncodeEvmScript extC1 formC1 toyAgent =
      .ok ([0, 0, 0, 1] ++ List.replicate 20 170 ++ [0, 0, 0, 5] ++
        [101, 120, 101, 99, 7]) ∧
    decodeEvmScript extC1
      ([0, 0, 0, 1] ++ List.replicate 20 170 ++ [0, 0, 0, 5] ++
        [101, 120, 101, 99, 7]) (metadataOf formC1) = none :=
  ⟨rfl, rfl⟩

/-- Externals used for the positive round-trip instances: a one-parameter
transfer signature, a consistent table-driven ABI coder and a resolver
that recognizes the two literal addresses involved. -/
def extRT : Externals where
  keccak256 := toyKeccak
  abiEncode := fun tys _ =>
    if tys = ["address", "uint256"] then some [1]
    else if tys = execTypes then some [2] else none
  abiDecode := fun tys bs =>
    if tys = execTypes ∧ bs = [2] then
      some [.vstr "0xB", .vnum 0, .vbytes ([116, 114, 97, 110] ++ [1])]
    else if tys = ["address", "uint256"] ∧ bs = [1] then
      some [.vstr "0xA", .vstr "7"]
    else none
  isAddress := fun s => s == "0xA" || s == "0xB"
  resolveName := fun _ => none
  lookupEns := fun _ => none
  isValidFunctionFragment := fun s => s == "transfer(address,uint256)"
  jsonParse := fun s =>
    if s == "[\"0xA\",\"7\"]" then some (.varr [.vstr "0xA", .vstr "7"])
    else none
  jsonStringify := fun _ => "[\"0xA\",\"7\"]"

/-- A one-parameter transfer form over literal addresses. -/
def formRT : NewProposalFormData :=
  ⟨.primary, "", "", "0xB", "transfer(address,uint256)", "0", "[\"0xA\",\"7\"]"⟩

theorem extRT_ens_roundtrip : ∀ nm a,
    convertToAddressOrThrow extRT nm = some a →
    tryConvertToEnsName extRT a = nm := by
  intro nm a h
  unfold convertToAddressOrThrow at h
  split at h
  · injection h with h'
    subst h'
    rfl
  · exact Option.noConfusion h

theorem c1_witness :
    goEncodeEvmScript extRT formRT toyAgent =
      .ok (evmScriptFor extRT toyAgent formRT [2]) ∧
    decodeEvmScript extRT (evmScriptFor extRT toyAgent formRT [2])
      (metadataOf formRT) =
      some ⟨"0xB", 0, [.vstr "0xA", .vstr "7"]⟩ :=
  c1_encode_decode_roundtrip extRT toyAgent formRT
    [.vstr "0xA", .vstr "7"] [.vstr "0xA", .vstr "7"] [1] [2] "0xB" 0
    toyKeccak_length rfl rfl rfl rfl
    (by
      intro v hv
      rcases List.mem_cons.mp hv with rfl | hv2
      · exact ⟨_, rfl⟩
      · rcases List.mem_cons.mp hv2 with rfl | h3
        · exact ⟨_, rfl⟩
        · cases h3)
    rfl rfl rfl rfl (by decide) rfl (by decide) rfl rfl rfl
    extRT_ens_roundtrip

/-- C2: re-encoding the decoded fields of a proposal whose script was
produced by `goEncodeEvmScript` and whose `decodedEvmScript` is its decode
reproduces the stored bytes exactly, so `isEvmScriptValid` returns `true`
(under the stated assumptions on the external ABI coder, JSON round-trip
and resolver); moreover `isEvmScriptValid` is a total boolean function and
any encode failure during re-encoding makes it return `false`. -/
theorem c2_isEvmScriptValid_roundtrip
    (ext : Externals) (agent : Api3Agent) (f : NewProposalFormData)
    (ps resolved : List EvmValue) (encP body : Bytes) (A : String) (V : Int)
    (hps : ext.jsonParse f.parameters = some (.varr ps))
    (hsig : ext.isValidFunctionFragment f.targetSignature = true)
    (harity : (extractParameterTypes f.targetSignature).length = ps.length)
    (hstr : ∀ v ∈ ps, ∃ s, v = .vstr s)
    (hres : resolveTargetParameters ext
      (extractParameterTypes f.targetSignature) ps = some resolved)
    (hencP : ext.abiEncode (extractParameterTypes f.targetSignature) resolved
      = some encP)
    (hA : convertToAddressOrThrow ext f.targetAddress = some A)
    (hV : bigNumberFromString f.targetValue = some V)
    (hV0 : ¬ V < 0)
    (hbody : ext.abiEncode execTypes
      [.vstr A, .vnum V,
       .vbytes (encodeFunctionSignature ext f.targetSignature ++ encP)] = some body)
    (hlen : (encodedExecuteSignature ext ++ body).length < 2 ^ 32)
    (hk32 : ∀ b, (ext.keccak256 b).length = 32)
    (h20 : (agent.get f.type).length = 20)
    (hsame : decodeParameterTypes f.targetSignature =
      extractParameterTypes f.targetSignature)
    (hdecExec : ext.abiDecode execTypes body = some [.vstr A, .vnum V,
      .vbytes (encodeFunctionSignature ext f.targetSignature ++ encP)])
    (hdecP : ext.abiDecode (decodeParameterTypes f.targetSignature) encP
      = some resolved)
    (hens : ∀ nm a, convertToAddressOrThrow ext nm = some a →
      tryConvertToEnsName ext a = nm)
    (hjson2 : ext.jsonParse (ext.jsonStringify (.varr ps)) = some (.varr ps)) :
    (goEncodeEvmScript ext f agent = .ok (evmScriptFor ext agent f body) ∧
     decodeEvmScript ext (evmScriptFor ext agent f body) (metadataOf f) =
      some ⟨f.targetAddress, V, ps⟩ ∧
     isEvmScriptValid ext agent
      ⟨f.type, metadataOf f, some ⟨f.targetAddress, V, ps⟩,
        evmScriptFor ext agent f body⟩ = true) ∧
    (∀ (ext' : Externals) (agent' : Api3Agent) (p' : ProposalCore)
      (d' : DecodedEvmScript) (e' : EncodedEvmScriptError),
      p'.decodedEvmScript = some d' →
      goEncodeEvmScript ext' (reencodeFormData ext' p' d') agent' = .error e' →
      isEvmScriptValid ext' agent' p' = false) := by
  constructor
  · refine ⟨goEncodeEvmScript_eq_ok ext agent f ps resolved encP body A V hps
      hsig harity hres hencP hA hV hV0 hbody hlen, ?_, ?_⟩
    · have hd := decodeEvmScript_eq_some ext (agent.get f.type)
        (be4 (encodedExecuteSignature ext ++ body).length) body encP
        (metadataOf f) A V resolved ps hk32 h20 (be4_length _) hdecExec hsame
        hdecP harity hstr hres hens
      rw [hens _ _ hA] at hd
      exact hd
    · have henc2 := goEncodeEvmScript_eq_ok ext agent
        (reencodeFormData ext
          ⟨f.type, metadataOf f, some ⟨f.targetAddress, V, ps⟩,
            evmScriptFor ext agent f body⟩
          ⟨f.targetAddress, V, ps⟩)
        ps resolved encP body A V hjson2 hsig harity hres hencP hA
        (bigNumberFromString_intToDecString (not_lt.mp hV0)) hV0 hbody hlen
      show (match goEncodeEvmScript ext
          (reencodeFormData ext
            ⟨f.type, metadataOf f, some ⟨f.targetAddress, V, ps⟩,
              evmScriptFor ext agent f body⟩
            ⟨f.targetAddress, V, ps⟩) agent with
        | Except.ok data => data == evmScriptFor ext agent f body
        | Except.error _ => false) = true
      rw [henc2]
      exact beq_self_eq_true _
  · intro ext' agent' p' d' e' hd' herr
    simp only [isEvmScriptValid, hd', herr]

theorem c2_witness :
    (goEncodeEvmScript extRT formRT toyAgent =
      .ok (evmScriptFor extRT toyAgent formRT [2]) ∧
     decodeEvmScript extRT (evmScriptFor extRT toyAgent formRT [2])
      (metadataOf formRT) = some ⟨"0xB", 0, [.vstr "0xA", .vstr "7"]⟩ ∧
     isEvmScriptValid extRT toyAgent
      ⟨.primary, metadataOf formRT, some ⟨"0xB", 0, [.vstr "0xA", .vstr "7"]⟩,
        evmScriptFor extRT toyAgent formRT [2]⟩ = true) ∧
    (∀ (ext' : Externals) (agent' : Api3Agent) (p' : ProposalCore)
      (d' : DecodedEvmScript) (e' : EncodedEvmScriptError),
      p'.decodedEvmScript = some d' →
      goEncodeEvmScript ext' (reencodeFormData ext' p' d') agent' = .error e' →
      isEvmScriptValid ext' agent' p' = false) :=
  c2_isEvmScriptValid_roundtrip extRT toyAgent formRT
    [.vstr "0xA", .vstr "7"] [.vstr "0xA", .vstr "7"] [1] [2] "0xB" 0
    rfl rfl rfl
    (by
      intro v hv
      rcases List.mem_cons.mp hv with rfl | hv2
      · exact ⟨_, rfl⟩
      · rcases List.mem_cons.mp hv2 with rfl | h3
        · exact ⟨_, rfl⟩
        · cases h3)
    rfl rfl rfl rfl (by decide) rfl (by decide)
    toyKeccak_length rfl rfl rfl rfl
    extRT_ens_roundtrip rfl

/-- C3: every successful `goEncodeEvmScript` result is exactly the fixed
4-byte tag `0x00000001`, the agent address selected by the form's type,
the big-endian 4-byte byte-length of the execute call-data, and the execute
call-data itself: the 4-byte selector of `execute(address,uint256,bytes)`
followed by the ABI encoding of the resolved target address, the parsed
value and the inner call bytes (the 4-byte selector of the target
signature followed by the ABI-encoded parameters). -/
theorem c3_script_layout (ext : Externals) (agent : Api3Agent)
    (f : NewProposalFormData) (s : Bytes)
    (hk32 : ∀ b, (ext.keccak256 b).length = 32)
    (henc : goEncodeEvmScript ext f agent = .ok s) :
    (encodedExecuteSignature ext).length = 4 ∧
    ∃ (ps resolved : List EvmValue) (A : String) (V : Int) (encP body : Bytes),
      ext.jsonParse f.parameters = some (.varr ps) ∧
      resolveTargetParameters ext (extractParameterTypes f.targetSignature) ps
        = some resolved ∧
      ext.abiEncode (extractParameterTypes f.targetSignature) resolved
        = some encP ∧
      convertToAddressOrThrow ext f.targetAddress = some A ∧
      bigNumberFromString f.targetValue = some V ∧
      ext.abiEncode execTypes
        [.vstr A, .vnum V,
         .vbytes (encodeFunctionSignature ext f.targetSignature ++ encP)]
        = some body ∧
      (encodedExecuteSignature ext ++ body).length < 2 ^ 32 ∧
      s = [0, 0, 0, 1] ++ agent.get f.type ++
        be4 (encodedExecuteSignature ext ++ body).length ++
        (encodedExecuteSignature ext ++ body) := by
  refine ⟨encodeFunctionSignature_length ext hk32 _, ?_⟩
  simp only [goEncodeEvmScript] at henc
  repeat' split at henc
  all_goals try exact Except.noConfusion henc
  rename_i x5 tps hjson hsig harity x4 resolved hres x3 encP hencP x2 A hA
    x1 V hV hV0 x0 scr hbuild
  have hs : scr = s := by injection henc
  subst hs
  unfold goBuildEvmScript at hbuild
  rcases Option.bind_eq_some.mp hbuild with ⟨body, hbody, hbuild2⟩
  rcases Option.bind_eq_some.mp hbuild2 with ⟨lenB, hlenB, hb3⟩
  unfold hexZeroPad4 at hlenB
  split at hlenB
  case isFalse => exact Option.noConfusion hlenB
  rename_i hlt
  have hlenB' : be4 (encodedExecuteSignature ext ++ body).length = lenB := by
    injection hlenB
  have hs' : [0, 0, 0, 1] ++ agent.get f.type ++ lenB ++
      (encodedExecuteSignature ext ++ body) = scr := by injection hb3
  exact ⟨tps, resolved, A, V, encP, body, hjson, hres, hencP, hA,
    hV, hbody, hlt, by rw [← hs', ← hlenB']⟩

theorem c3_witness :
    (encodedExecuteSignature extRT).length = 4 ∧
    ∃ (ps resolved : List EvmValue) (A : String) (V : Int) (encP body : Bytes),
      extRT.jsonParse formRT.parameters = some (.varr ps) ∧
      resolveTargetParameters extRT
        (extractParameterTypes formRT.targetSignature) ps = some resolved ∧
      extRT.abiEncode (extractParameterTypes formRT.targetSignature) resolved
        = some encP ∧
      convertToAddressOrThrow extRT formRT.targetAddress = some A ∧
      bigNumberFromString formRT.targetValue = some V ∧
      extRT.abiEncode execTypes
        [.vstr A, .vnum V,
         .vbytes (encodeFunctionSignature extRT formRT.targetSignature ++ encP)]
        = some body ∧
      (encodedExecuteSignature extRT ++ body).length < 2 ^ 32 ∧
      evmScriptFor extRT toyAgent formRT [2] =
        [0, 0, 0, 1] ++ toyAgent.get formRT.type ++
        be4 (encodedExecuteSignature extRT ++ body).length ++
        (encodedExecuteSignature extRT ++ body) :=
  c3_script_layout extRT toyAgent formRT
    (evmScriptFor extRT toyAgent formRT [2]) toyKeccak_length rfl

/-- C4 (code-bug evidence): the encoder's parameter-type extraction and the
decoder's disagree on every zero-argument signature: the encoder filters
empty segments of the comma split and yields the empty list, while the
decoder does not filter and yields the singleton list containing the empty
string (which the ABI coder then rejects, so every zero-argument proposal
decodes to null). -/
theorem c4_extraction_divergence :
    extractParameterTypes "pause()" = [] ∧
    decodeParameterTypes "pause()" = [""] ∧
    decodeParameterTypes "pause()" ≠ extractParameterTypes "pause()" :=
  ⟨rfl, rfl, by decide⟩

/-- C5: `decodeEvmScript` is a total function into an option: on every
input it returns either a fully decoded value or `none` (thrown errors are
modelled as `none`); in particular any script shorter than the 28-byte
container header decodes to `none`, granted the external ABI coder rejects
the empty byte string against `(address, uint256, bytes)` as ethers does. -/
theorem c5_decode_total_and_null_on_short (ext : Externals) :
    (∀ (s : Bytes) (m : ProposalMetadata),
      decodeEvmScript ext s m = none ∨ ∃ d, decodeEvmScript ext s m = some d) ∧
    (ext.abiDecode execTypes [] = none →
      ∀ (s : Bytes) (m : ProposalMetadata), s.length < 28 →
        decodeEvmScript ext s m = none) := by
  constructor
  · intro s m
    cases h : decodeEvmScript ext s m with
    | none => exact Or.inl rfl
    | some d => exact Or.inr ⟨d, rfl⟩
  · intro habi s m hlen
    have hdrop : (s.drop 4).drop 24 = [] := by
      rw [List.drop_drop]
      apply List.drop_eq_nil_of_le
      omega
    simp only [decodeEvmScript]
    rw [hdrop]
    simp [habi]

theorem c5_witness :
    decodeEvmScript extC1 [0, 1, 2] ⟨"pause()", "", ""⟩ = none :=
  (c5_decode_total_and_null_on_short extC1).2 rfl [0, 1, 2] ⟨"pause()", "", ""⟩
    (by decide)

/-- Every error produced by `goEncodeEvmScript` carries one of the five
non-empty human-readable messages of the source. -/
theorem goEncodeEvmScript_error_value_ne (ext : Externals)
    (f : NewProposalFormData) (agent : Api3Agent) :
    ∀ e, goEncodeEvmScript ext f agent = .error e → e.value ≠ "" := by
  intro e he
  simp only [goEncodeEvmScript] at he
  repeat' split at he
  all_goals
    first
      | exact Except.noConfusion he
      | (cases he; decide)

/-- C6: on every input, `goEncodeEvmScript` either succeeds with the byte
string or fails with a value whose field identifier is one of
`parameters`, `targetSignature`, `targetValue`, `targetAddress`, `generic`
and whose message is non-empty; failures are values of the result type, so
no exception escapes. -/
theorem c6_encode_total_tagged (ext : Externals) (f : NewProposalFormData)
    (agent : Api3Agent) :
    (∃ b, goEncodeEvmScript ext f agent = .ok b) ∨
    (∃ e, goEncodeEvmScript ext f agent = .error e ∧ e.value ≠ "" ∧
      (e.field = .parameters ∨ e.field = .targetSignature ∨
       e.field = .targetValue ∨ e.field = .targetAddress ∨
       e.field = .generic)) := by
  cases h : goEncodeEvmScript ext f agent with
  | ok b => exact Or.inl ⟨b, rfl⟩
  | error e =>
    refine Or.inr ⟨e, rfl, goEncodeEvmScript_error_value_ne ext f agent e h, ?_⟩
    rcases e with ⟨fld, msg⟩
    cases fld <;> simp

/-- C7: with a valid JSON-array parameters field and a syntactically valid
signature, any mismatch between the parameters array length and the
signature's declared arity (including 0 versus non-0) makes
`goEncodeEvmScript` fail with the arity message on field `parameters`. -/
theorem c7_arity_mismatch (ext : Externals) (f : NewProposalFormData)
    (agent : Api3Agent) (ps : List EvmValue)
    (hps : ext.jsonParse f.parameters = some (.varr ps))
    (hsig : ext.isValidFunctionFragment f.targetSignature = true)
    (hmm : (extractParameterTypes f.targetSignature).length ≠ ps.length) :
    goEncodeEvmScript ext f agent =
      .error ⟨.parameters,
        "Please specify the correct number of function arguments"⟩ := by
  simp only [goEncodeEvmScript, hps, hsig, if_true]
  rw [if_neg hmm]

/-- Externals exhibiting an arity mismatch: a zero-argument signature with
a one-element parameters array. -/
def extC7 : Externals where
  keccak256 := toyKeccak
  abiEncode := fun _ _ => none
  abiDecode := fun _ _ => none
  isAddress := fun _ => false
  resolveName := fun _ => none
  lookupEns := fun _ => none
  isValidFunctionFragment := fun s => s == "pause()"
  jsonParse := fun s => if s == "[\"1\"]" then some (.varr [.vstr "1"]) else none
  jsonStringify := fun _ => ""

/-- A zero-argument signature paired with one parameter. -/
def formC7 : NewProposalFormData :=
  ⟨.primary, "", "", "0xB", "pause()", "0", "[\"1\"]"⟩

theorem c7_witness :
    goEncodeEvmScript extC7 formC7 toyAgent =
      .error ⟨.parameters,
        "Please specify the correct number of function arguments"⟩ :=
  c7_arity_mismatch extC7 formC7 toyAgent [.vstr "1"] rfl rfl (by decide)

/-- C8: once the parameter, signature, arity, parameter-encoding and
target-address steps pass, a targetValue of "-1" fails with the
invalid-value message on field `targetValue`, while a targetValue of "0"
never produces a `targetValue`-field error (it is accepted as a
non-negative amount; only the final generic assembly step can still
fail). -/
theorem c8_value_validation (ext : Externals) (agent : Api3Agent)
    (f : NewProposalFormData) (ps resolved : List EvmValue) (encP : Bytes)
    (A : String)
    (hps : ext.jsonParse f.parameters = some (.varr ps))
    (hsig : ext.isValidFunctionFragment f.targetSignature = true)
    (harity : (extractParameterTypes f.targetSignature).length = ps.length)
    (hres : resolveTargetParameters ext
      (extractParameterTypes f.targetSignature) ps = some resolved)
    (hencP : ext.abiEncode (extractParameterTypes f.targetSignature) resolved
      = some encP)
    (hA : convertToAddressOrThrow ext f.targetAddress = some A) :
    goEncodeEvmScript ext { f with targetValue := "-1" } agent =
      .error ⟨.targetValue, "Please enter a valid amount in Wei"⟩ ∧
    ∀ e, goEncodeEvmScript ext { f with targetValue := "0" } agent = .error e →
      e.field ≠ .targetValue := by
  constructor
  · have hV : bigNumberFromString "-1" = some (-1) := rfl
    simp only [goEncodeEvmScript, hps, hsig, harity, if_pos rfl, if_true,
      hres, hencP, hA, hV]
    rw [if_pos (by decide : (-1 : Int) < 0)]
  · intro e he
    have hV : bigNumberFromString "0" = some 0 := rfl
    simp only [goEncodeEvmScript, hps, hsig, harity, if_pos rfl, if_true,
      hres, hencP, hA, hV] at he
    rw [if_neg (by decide : ¬ (0 : Int) < 0)] at he
    cases hb : goBuildEvmScript ext { f with targetValue := "0" } agent A 0 encP with
    | some scr =>
      rw [hb] at he
      exact Except.noConfusion he
    | none =>
      rw [hb] at he
      cases he
      decide

theorem c8_witness :
    (goEncodeEvmScript extRT { formRT with targetValue := "-1" } toyAgent =
      .error ⟨.targetValue, "Please enter a valid amount in Wei"⟩ ∧
    ∀ e, goEncodeEvmScript extRT { formRT with targetValue := "0" } toyAgent
      = .error e → e.field ≠ .targetValue) :=
  c8_value_validation extRT toyAgent formRT
    [.vstr "0xA", .vstr "7"] [.vstr "0xA", .vstr "7"] [1] "0xB"
    rfl rfl rfl rfl rfl rfl

/-- A decoded JS value contains a BigNumber, at any nesting depth. -/
inductive ContainsBigNumber : EvmValue → Prop where
  | num (n : Int) : ContainsBigNumber (.vnum n)
  | arr {v : EvmValue} {vs : List EvmValue} (hm : v ∈ vs)
      (hv : ContainsBigNumber v) : ContainsBigNumber (.varr vs)

mutual

theorem not_containsBigNumber_stringify :
    ∀ v : EvmValue, ¬ ContainsBigNumber (stringifyBigNumbersRecursively v)
  | .vstr s => fun h => nomatch h
  | .vnum n => fun h => nomatch h
  | .vbool b => fun h => nomatch h
  | .vbytes b => fun h => nomatch h
  | .vnull => fun h => nomatch h
  | .varr vs => fun h => by
    rw [show stringifyBigNumbersRecursively (.varr vs) =
      .varr (stringifyBigNumbersList vs) from by
        rw [stringifyBigNumbersRecursively]] at h
    cases h with
    | arr hm hv => exact not_containsBigNumber_mem vs _ hm hv

theorem not_containsBigNumber_mem :
    ∀ (vs : List EvmValue) (v : EvmValue),
      v ∈ stringifyBigNumbersList vs → ¬ ContainsBigNumber v
  | [], v => fun hm => by
    rw [show stringifyBigNumbersList [] = [] from by
      rw [stringifyBigNumbersList]] at hm
    exact absurd hm (List.not_mem_nil v)
  | w :: ws, v => fun hm => by
    rw [stringifyBigNumbersList_cons] at hm
    rcases List.mem_cons.mp hm with rfl | hm2
    · exact not_containsBigNumber_stringify w
    · exact not_containsBigNumber_mem ws v hm2

end

/-- Indexing helper: the head-with-default of a value list is its entry at
index 0. -/
theorem headD_eq_getD_zero (vals : List EvmValue) :
    vals.headD .vnull = vals.getD 0 .vnull := by
  cases vals <;> rfl

/-- Indexing helper: entry `i` of the tail is entry `i + 1` of the list. -/
theorem tail_getD (vals : List EvmValue) (i : Nat) :
    vals.tail.getD i .vnull = vals.getD (i + 1) .vnull := by
  cases vals <;> rfl

/-- Unfolding equation for `decodeParametersAux` with an arbitrary value
list. -/
theorem decodeParametersAux_cons_any (ext : Externals) (ty : String)
    (tys : List String) (vals : List EvmValue) :
    decodeParametersAux ext (ty :: tys) vals =
      (if ty ≠ "address" then vals.headD .vnull
        else tryConvertToEnsNameV ext (vals.headD .vnull)) ::
        decodeParametersAux ext tys vals.tail := by
  rw [decodeParametersAux]

/-- Entry `i` of the decode-side ENS fan-out: the `i`-th decoded value,
reverse-resolved exactly when the `i`-th declared type is `address`. -/
theorem decodeParametersAux_get? (ext : Externals) :
    ∀ (tys : List String) (vals : List EvmValue) (i : Nat) (ty : String),
      tys.get? i = some ty →
      (decodeParametersAux ext tys vals).get? i =
        some (if ty ≠ "address" then vals.getD i .vnull
          else tryConvertToEnsNameV ext (vals.getD i .vnull)) := by
  intro tys
  induction tys with
  | nil =>
    intro vals i ty h
    simp at h
  | cons ty' tys ih =>
    intro vals i ty h
    cases i with
    | zero =>
      rw [List.get?_cons_zero] at h
      have hty : ty' = ty := by injection h
      subst hty
      rw [decodeParametersAux_cons_any, List.get?_cons_zero,
        headD_eq_getD_zero]
    | succ i =>
      rw [List.get?_cons_succ] at h
      rw [decodeParametersAux_cons_any, List.get?_cons_succ,
        ih vals.tail i ty h, tail_getD]

/-- Entry `i` of the stringification pass is the stringification of entry
`i`. -/
theorem stringifyBigNumbersList_get? :
    ∀ (vs : List EvmValue) (i : Nat),
      (stringifyBigNumbersList vs).get? i =
        (vs.get? i).map stringifyBigNumbersRecursively := by
  intro vs
  induction vs with
  | nil =>
    intro i
    rw [show stringifyBigNumbersList [] = [] from by
      rw [stringifyBigNumbersList]]
    rfl
  | cons v vs ih =>
    intro i
    cases i with
    | zero => rw [stringifyBigNumbersList_cons]; rfl
    | succ i =>
      rw [stringifyBigNumbersList_cons, List.get?_cons_succ,
        List.get?_cons_succ, ih]

/-- C9 (amended): for every script that `decodeEvmScript` successfully
decodes, the returned parameters are the ABI-decoded inner-call values
passed through reverse ENS resolution and BigNumber stringification: each
entry whose declared type is `address` and whose decoded value is a string
is reverse-resolved to its display name, every decoded BigNumber
(including those inside nested arrays — no BigNumber remains at any
nesting depth) is converted to its decimal string representation, and
entries of other non-string types (such as booleans) are returned as
decoded and need not be strings. -/
theorem c9_decoded_parameters_pipeline (ext : Externals) (s : Bytes)
    (m : ProposalMetadata) (d : DecodedEvmScript)
    (hdec : decodeEvmScript ext s m = some d) :
    (∀ v ∈ d.parameters, ¬ ContainsBigNumber v) ∧
    ∃ (target : String) (value : Int) (targetCallData : Bytes)
      (dec : List EvmValue),
      ext.abiDecode execTypes (((s.drop 4).drop 24).drop 4) =
        some [.vstr target, .vnum value, .vbytes targetCallData] ∧
      ext.abiDecode (decodeParameterTypes m.targetSignature)
        (targetCallData.drop 4) = some dec ∧
      d.targetAddress = tryConvertToEnsName ext target ∧
      d.value = value ∧
      d.parameters = stringifyBigNumbersList
        (decodeParametersAux ext (decodeParameterTypes m.targetSignature) dec) ∧
      (∀ i a, (decodeParameterTypes m.targetSignature).get? i = some "address" →
        dec.getD i .vnull = .vstr a →
        d.parameters.get? i = some (.vstr (tryConvertToEnsName ext a))) ∧
      (∀ i ty n, (decodeParameterTypes m.targetSignature).get? i = some ty →
        dec.getD i .vnull = .vnum n →
        d.parameters.get? i = some (.vstr (intToDecString n))) ∧
      (∀ i ty b, (decodeParameterTypes m.targetSignature).get? i = some ty →
        dec.getD i .vnull = .vbool b →
        d.parameters.get? i = some (.vbool b)) := by
  simp only [decodeEvmScript] at hdec
  rcases Option.bind_eq_some.mp hdec with ⟨exec, hexec, hrest⟩
  split at hrest
  · rcases Option.bind_eq_some.mp hrest with ⟨dec, hdecp, hd⟩
    cases hd
    rename_i target value targetCallData
    refine ⟨fun v hv => not_containsBigNumber_mem _ v hv,
      target, value, targetCallData, dec, hexec, hdecp, rfl, rfl, rfl,
      ?_, ?_, ?_⟩
    · intro i a hty ha
      show (stringifyBigNumbersList (decodeParametersAux ext
        (decodeParameterTypes m.targetSignature) dec)).get? i = _
      rw [stringifyBigNumbersList_get?,
        decodeParametersAux_get? ext _ dec i "address" hty, ha]
      rw [if_neg (by simp)]
      rfl
    · intro i ty n hty hn
      show (stringifyBigNumbersList (decodeParametersAux ext
        (decodeParameterTypes m.targetSignature) dec)).get? i = _
      rw [stringifyBigNumbersList_get?,
        decodeParametersAux_get? ext _ dec i ty hty, hn]
      rw [show (if ty ≠ "address" then EvmValue.vnum n
        else tryConvertToEnsNameV ext (.vnum n)) = .vnum n from by
          split <;> rfl]
      rfl
    · intro i ty b hty hb
      show (stringifyBigNumbersList (decodeParametersAux ext
        (decodeParameterTypes m.targetSignature) dec)).get? i = _
      rw [stringifyBigNumbersList_get?,
        decodeParametersAux_get? ext _ dec i ty hty, hb]
      rw [show (if ty ≠ "address" then EvmValue.vbool b
        else tryConvertToEnsNameV ext (.vbool b)) = .vbool b from by
          split <;> rfl]
      rfl
  · exact Option.noConfusion hrest

/-- Externals whose ABI coder decodes a `bool` parameter to a boolean, as
ethers does. -/
def extC9 : Externals where
  keccak256 := toyKeccak
  abiEncode := fun _ _ => none
  abiDecode := fun tys bs =>
    if tys = execTypes ∧ bs = [42] then
      some [.vstr "0xB", .vnum 0, .vbytes [0, 0, 0, 0, 43]]
    else if tys = ["bool"] ∧ bs = [43] then some [.vbool true] else none
  isAddress := fun _ => false
  resolveName := fun _ => none
  lookupEns := fun _ => none
  isValidFunctionFragment := fun _ => false
  jsonParse := fun _ => none
  jsonStringify := fun _ => ""

/-- C9 counterexample: a script decoding successfully against signature
`flag(bool)` returns the boolean `true` as its parameter entry — the
decoder stringifies only BigNumbers, so this entry is not a string. -/
theorem c9_counterexample :
    decodeEvmScript extC9 (List.replicate 28 0 ++ [0, 0, 0, 0, 42])
      ⟨"flag(bool)", "", ""⟩ = some ⟨"0xB", 0, [.vbool true]⟩ ∧
    ∀ s : String, (EvmValue.vbool true) ≠ .vstr s :=
  ⟨rfl, fun _ h => EvmValue.noConfusion h⟩

theorem c9_witness :
    (∀ v ∈ [EvmValue.vbool true], ¬ ContainsBigNumber v) ∧
    ∃ (target : String) (value : Int) (targetCallData : Bytes)
      (dec : List EvmValue),
      extC9.abiDecode execTypes
        ((((List.replicate 28 0 ++ [0, 0, 0, 0, 42] : Bytes).drop 4).drop
          24).drop 4) =
        some [.vstr target, .vnum value, .vbytes targetCallData] ∧
      extC9.abiDecode (decodeParameterTypes "flag(bool)")
        (targetCallData.drop 4) = some dec ∧
      "0xB" = tryConvertToEnsName extC9 target ∧
      (0 : Int) = value ∧
      [EvmValue.vbool true] = stringifyBigNumbersList
        (decodeParametersAux extC9 (decodeParameterTypes "flag(bool)") dec) ∧
      (∀ i a, (decodeParameterTypes "flag(bool)").get? i = some "address" →
        dec.getD i .vnull = .vstr a →
        [EvmValue.vbool true].get? i =
          some (.vstr (tryConvertToEnsName extC9 a))) ∧
      (∀ i ty n, (decodeParameterTypes "flag(bool)").get? i = some ty →
        dec.getD i .vnull = .vnum n →
        [EvmValue.vbool true].get? i = some (.vstr (intToDecString n))) ∧
      (∀ i ty b, (decodeParameterTypes "flag(bool)").get? i = some ty →
        dec.getD i .vnull = .vbool b →
        [EvmValue.vbool true].get? i = some (.vbool b)) :=
  c9_decoded_parameters_pipeline extC9
    (List.replicate 28 0 ++ [0, 0, 0, 0, 42]) ⟨"flag(bool)", "", ""⟩
    ⟨"0xB", 0, [.vbool true]⟩ (by rfl)

/-- C10: a proposal whose `decodedEvmScript` is null is reported invalid
immediately, for every choice of externals and agent map — the encoder and
the resolver are never consulted (the result does not depend on them). -/
theorem c10_null_decoded_invalid (p : ProposalCore)
    (h : p.decodedEvmScript = none) :
    ∀ (ext : Externals) (agent : Api3Agent),
      isEvmScriptValid ext agent p = false := by
  intro ext agent
  simp only [isEvmScriptValid, h]

theorem c10_witness :
    isEvmScriptValid extC9 toyAgent ⟨.primary, ⟨"", "", ""⟩, none, []⟩ = false :=
  c10_null_decoded_invalid ⟨.primary, ⟨"", "", ""⟩, none, []⟩ rfl extC9 toyAgent
